import Mathlib

/-!
Verification of the natural-language specification of `parse_elf`
(src/parse_elf.c) against a shallow embedding of its code.

A byte buffer is a `List Nat`, each element a byte value.  The program
runs on x86-64 (little-endian host) and decodes headers by overlaying
`Elf64_Ehdr` / `Elf64_Phdr` / `Elf64_Shdr` structs on the mapped file,
so every multi-byte field load is modelled as an explicit little-endian
assembly of the bytes at the field's fixed offset.
-/

namespace ParseElf

/-! ## Embedding of the observed code (src/parse_elf.c) -/

/-- Little-endian 16-bit load at offset `o`, as performed by the x86-64
struct overlay for a `uint16_t` field (bytes out of range read as 0). -/
def u16le (b : List Nat) (o : Nat) : Nat :=
  b.getD o 0 + 0x100 * b.getD (o + 1) 0

/-- Little-endian 32-bit load at offset `o` (x86-64 struct overlay for a
`uint32_t` field). -/
def u32le (b : List Nat) (o : Nat) : Nat :=
  b.getD o 0 + 0x100 * b.getD (o + 1) 0 + 0x10000 * b.getD (o + 2) 0 +
    0x1000000 * b.getD (o + 3) 0

/-- Little-endian 64-bit load at offset `o` (x86-64 struct overlay for a
`uint64_t` field). -/
def u64le (b : List Nat) (o : Nat) : Nat :=
  b.getD o 0 + 0x100 * b.getD (o + 1) 0 + 0x10000 * b.getD (o + 2) 0 +
    0x1000000 * b.getD (o + 3) 0 + 0x100000000 * b.getD (o + 4) 0 +
    0x10000000000 * b.getD (o + 5) 0 + 0x1000000000000 * b.getD (o + 6) 0 +
    0x100000000000000 * b.getD (o + 7) 0

/-- The assert condition of `map_file` (parse_elf.c:127-130): the first
four mapped bytes must be `0x7f 'E' 'L' 'F'`.  When this is `false` the
C program's `assert` fires and the whole process aborts; there is no
other validation of the input in `map_file`. -/
def map_file_assert (b : List Nat) : Bool :=
  (b.getD 0 0 == 0x7f) && (b.getD 1 0 == 0x45) &&
    (b.getD 2 0 == 0x4c) && (b.getD 3 0 == 0x46)

/-- The `Elf64_Ehdr` fields the program reads after the overlay
(`e_ident` bytes are accessed directly via `u8` loads and are not
repeated here). -/
structure Ehdr where
  e_type : Nat
  e_machine : Nat
  e_version : Nat
  e_entry : Nat
  e_phoff : Nat
  e_shoff : Nat
  e_flags : Nat
  e_ehsize : Nat
  e_phentsize : Nat
  e_phnum : Nat
  e_shentsize : Nat
  e_shnum : Nat
  e_shstrndx : Nat
  deriving Repr, DecidableEq

/-- The struct overlay `Elf64_Ehdr *e = (Elf64_Ehdr *)map_addr`
(parse_elf.c:138): each field is the little-endian load at its fixed
offset in the 64-byte ELF64 header. -/
def decodeEhdr (b : List Nat) : Ehdr where
  e_type := u16le b 0x10
  e_machine := u16le b 0x12
  e_version := u32le b 0x14
  e_entry := u64le b 0x18
  e_phoff := u64le b 0x20
  e_shoff := u64le b 0x28
  e_flags := u32le b 0x30
  e_ehsize := u16le b 0x34
  e_phentsize := u16le b 0x36
  e_phnum := u16le b 0x38
  e_shentsize := u16le b 0x3A
  e_shnum := u16le b 0x3C
  e_shstrndx := u16le b 0x3E

/-- The value printed in the "Section hdr str idx" row (parse_elf.c:377):
the code passes `e->e_shnum`, not `e->e_shstrndx`, to that `printf`. -/
def shstrndx_row (e : Ehdr) : Nat := e.e_shnum

/-- Sentinel classification shown in the "Meaning" column of the
"Section hdr str idx" row. -/
inductive StrIdxClass
  | NoTable
  | Extended
  | Plain
  deriving Repr, DecidableEq

/-- The sentinel test of parse_elf.c:378-379: the code compares
`e->e_shnum` (not `e->e_shstrndx`) against `SHN_UNDEF` (0) and
`SHN_XINDEX` (0xffff). -/
def shstrndx_class (e : Ehdr) : StrIdxClass :=
  if e.e_shnum = 0 then .NoTable
  else if e.e_shnum = 0xffff then .Extended
  else .Plain

/-- Segment-type classification result of the conditional chain at
parse_elf.c:409-421. -/
inductive SegmentType
  | Null
  | Load
  | Dynamic
  | Interp
  | Note
  | Shlib
  | Phdr
  | ProcessorSpecific
  | GnuEhFrame
  | GnuStack
  | GnuRelro
  | Unknown (raw : Nat)
  deriving Repr, DecidableEq

/-- The `p_type` conditional chain of parse_elf.c:409-421, in source
order: the seven fixed constants, then the inclusive range
`PT_LOPROC (0x70000000) .. PT_HIPROC (0x7fffffff)`, then the three GNU
types, and finally the `err_buf` fallthrough carrying the raw value. -/
def classifySegType (t : Nat) : SegmentType :=
  if t = 0 then .Null
  else if t = 1 then .Load
  else if t = 2 then .Dynamic
  else if t = 3 then .Interp
  else if t = 4 then .Note
  else if t = 5 then .Shlib
  else if t = 6 then .Phdr
  else if 0x70000000 ≤ t ∧ t ≤ 0x7fffffff then .ProcessorSpecific
  else if t = 0x6474e550 then .GnuEhFrame
  else if t = 0x6474e551 then .GnuStack
  else if t = 0x6474e552 then .GnuRelro
  else .Unknown t

/-- The fixed known `p_type` constants appearing in the chain of
parse_elf.c:409-420, GNU types included. -/
def knownSegTypes : List Nat :=
  [0, 1, 2, 3, 4, 5, 6, 0x6474e550, 0x6474e551, 0x6474e552]

/-- Permission-flag decoding of parse_elf.c:422-424: the three ternaries
`p_flags & PF_R`, `p_flags & PF_W`, `p_flags & PF_X` with
`PF_R = 4`, `PF_W = 2`, `PF_X = 1`; the triple is (Read, Write,
Execute) presence. -/
def decodeFlags (f : Nat) : Bool × Bool × Bool :=
  (f &&& 4 != 0, f &&& 2 != 0, f &&& 1 != 0)

/-- Reconstruction of a raw `p_flags` value from the decoded
{Read, Write, Execute} bitset (the round-trip direction of §8 of the
spec). -/
def encodeFlags : Bool × Bool × Bool → Nat
  | (r, w, x) => (if r then 4 else 0) + (if w then 2 else 0) + (if x then 1 else 0)

/-- The `Elf64_Phdr` fields read by `parse_program_headers`. -/
structure Phdr where
  p_type : Nat
  p_flags : Nat
  p_offset : Nat
  p_vaddr : Nat
  p_paddr : Nat
  p_filesz : Nat
  p_memsz : Nat
  p_align : Nat
  deriving Repr, DecidableEq

/-- The struct overlay `Elf64_Phdr *` at byte offset `o`: field loads at
the fixed `Elf64_Phdr` member offsets (type +0, flags +4, offset +8,
vaddr +16, paddr +24, filesz +32, memsz +40, align +48). -/
def decodePhdrAt (b : List Nat) (o : Nat) : Phdr where
  p_type := u32le b o
  p_flags := u32le b (o + 4)
  p_offset := u64le b (o + 8)
  p_vaddr := u64le b (o + 16)
  p_paddr := u64le b (o + 24)
  p_filesz := u64le b (o + 32)
  p_memsz := u64le b (o + 40)
  p_align := u64le b (o + 48)

/-- The byte indices the loop of parse_elf.c:403-432 dereferences in the
program-header table region: `ph` starts at `map_addr + phoff` and is
advanced by `ph++`, i.e. by `sizeof(Elf64_Phdr) = 56` bytes per
iteration, and each iteration reads the whole 56-byte struct. -/
def tableReadIndices (base stride n : Nat) : List Nat :=
  (List.range n).flatMap fun i => (List.range stride).map fun j => base + i * stride + j

/-- Embedding of `parse_program_headers` (parse_elf.c:388-432): the
decoded entries, paired with the list of buffer indices the loop
dereferences.  The loop runs `i` from 0 to `e_phnum - 1` with no bounds
check of any kind against the buffer length. -/
def parse_program_headers (b : List Nat) : List Phdr × List Nat :=
  let e := decodeEhdr b
  ((List.range e.e_phnum).map fun i => decodePhdrAt b (e.e_phoff + i * 56),
   tableReadIndices e.e_phoff 56 e.e_phnum)

/-- The `Elf64_Shdr` fields read by `parse_section_headers`. -/
structure Shdr where
  sh_name : Nat
  sh_type : Nat
  sh_flags : Nat
  sh_addr : Nat
  sh_offset : Nat
  sh_size : Nat
  sh_link : Nat
  sh_info : Nat
  sh_addralign : Nat
  sh_entsize : Nat
  deriving Repr, DecidableEq

/-- The struct overlay `Elf64_Shdr *` at byte offset `o`: field loads at
the fixed `Elf64_Shdr` member offsets (name +0, type +4, flags +8,
addr +16, offset +24, size +32, link +40, info +44, addralign +48,
entsize +56). -/
def decodeShdrAt (b : List Nat) (o : Nat) : Shdr where
  sh_name := u32le b o
  sh_type := u32le b (o + 4)
  sh_flags := u64le b (o + 8)
  sh_addr := u64le b (o + 16)
  sh_offset := u64le b (o + 24)
  sh_size := u64le b (o + 32)
  sh_link := u32le b (o + 40)
  sh_info := u32le b (o + 44)
  sh_addralign := u64le b (o + 48)
  sh_entsize := u64le b (o + 56)

/-- Embedding of `parse_section_headers` (parse_elf.c:437-481): entries
and dereferenced indices; `sh++` advances by `sizeof(Elf64_Shdr) = 64`
bytes, again with no bounds check. -/
def parse_section_headers (b : List Nat) : List Shdr × List Nat :=
  let e := decodeEhdr b
  ((List.range e.e_shnum).map fun i => decodeShdrAt b (e.e_shoff + i * 64),
   tableReadIndices e.e_shoff 64 e.e_shnum)

/-- The inner scan of `parse_string_tables` (parse_elf.c:491-506),
recursing on `fuel = hi - pos` where `hi` is the loop bound
`(size_t)(sh_offset + sh_size)`.  State: `pos` is `str_offset`, `start`
is the offset printed at the head of the current line (the run start),
`acc` the bytes printed on the current line so far.  A nul byte ends the
run, emitting `(start, acc)`; when the loop exhausts the region with a
run still open (the `newline` flag clear, i.e. `start < hi`), that
partial run has already been displayed, so it is emitted as a final
entry. -/
def scanAux (b : List Nat) (hi : Nat) : Nat → Nat → Nat → List Nat → List (Nat × List Nat)
  | 0, _pos, start, acc => if start < hi then [(start, acc)] else []
  | fuel + 1, pos, start, acc =>
      if b.getD pos 0 = 0 then (start, acc) :: scanAux b hi fuel (pos + 1) (pos + 1) []
      else scanAux b hi fuel (pos + 1) start (acc ++ [b.getD pos 0])

/-- One string table, extracted from the region
`[sh_offset, (sh_offset + sh_size) mod 2^64)` exactly as the loop of
parse_elf.c:491-506 walks it (the bound is computed in `size_t`
arithmetic, hence the mod). -/
def strtabEntries (b : List Nat) (off size : Nat) : List (Nat × List Nat) :=
  let hi := (off + size) % 2 ^ 64
  scanAux b hi (hi - off) off off []

/-- The sections `parse_string_tables` selects (parse_elf.c:490):
exactly those with `sh_type == SHT_STRTAB` (3). -/
def strtabSections (b : List Nat) : List Shdr :=
  (parse_section_headers b).1.filter fun sh => sh.sh_type == 3

/-- Embedding of `parse_string_tables` (parse_elf.c:484-510): one string
table per STRTAB section, in section order. -/
def parse_string_tables (b : List Nat) : List (List (Nat × List Nat)) :=
  (strtabSections b).map fun sh => strtabEntries b sh.sh_offset sh.sh_size

/-- The buffer indices the scan of parse_elf.c:491-506 reads: each loop
iteration dereferences `map_addr[str_offset]` only, for `str_offset`
running from `sh_offset` while `str_offset < hi`. -/
def scanReadIndices : Nat → Nat → List Nat
  | 0, _ => []
  | fuel + 1, pos => pos :: scanReadIndices fuel (pos + 1)

/-- All indices read while scanning one STRTAB section. -/
def strtabReads (off size : Nat) : List Nat :=
  let hi := (off + size) % 2 ^ 64
  scanReadIndices (hi - off) off

/-- Render an extracted byte run as text. -/
def asString (l : List Nat) : String := String.mk (l.map fun n => Char.ofNat n)

/-! ## Spec-side definitions (for refinement comparison)

These follow the spec's words, independently of the code, so that the
code model above can be compared against them. -/

/-- Declared data encoding of §3 Identification. -/
inductive Endian
  | Little
  | Big
  deriving Repr, DecidableEq

/-- Little-endian value of a byte list (first byte least significant). -/
def bytesLE : List Nat → Nat
  | [] => 0
  | x :: xs => x + 0x100 * bytesLE xs

/-- The Byte Cursor contract of spec §4.1, written from the spec's
words: the value at `off` of `width` bytes in the declared endianness,
or `none` (OutOfBounds) when `off + width` exceeds the buffer length. -/
def readUInt (en : Endian) (b : List Nat) (off width : Nat) : Option Nat :=
  if off + width ≤ b.length then
    let bs := (List.range width).map fun j => b.getD (off + j) 0
    some (match en with
      | .Little => bytesLE bs
      | .Big => bytesLE bs.reverse)
  else none

/-- The 4-byte ELF magic. -/
def elfMagic : List Nat := [0x7f, 0x45, 0x4c, 0x46]

/-- A valid ELF64 image in the sense of spec §3/§4.2: at least a full
64-byte header, correct magic, class ELFCLASS64 (2), and a recognized
data encoding (1 little-endian, 2 big-endian). -/
def validElf64 (b : List Nat) : Bool :=
  (64 ≤ b.length : Bool) && (b.take 4 == elfMagic) && (b.getD 4 0 == 2) &&
    ((b.getD 5 0 == 1) || (b.getD 5 0 == 2))

/-- The buffer's declared endianness, from identification byte 5. -/
def declaredEndian (b : List Nat) : Endian :=
  if b.getD 5 0 = 2 then .Big else .Little

/-! ## Concrete inputs used by the claims -/

/-- A 64-byte file consisting solely of a little-endian ELF64 header
whose `e_phoff` (64) points exactly at the end of the file, with
`e_phentsize = 56` and `e_phnum = 1`: entry 0 lies entirely past the
end of the buffer. -/
def phoffPastEndBuf : List Nat :=
  [0x7f, 0x45, 0x4c, 0x46, 2, 1, 1, 0] ++ List.replicate 8 0 ++
    [2, 0] ++ [0x3e, 0] ++ [1, 0, 0, 0] ++ List.replicate 8 0 ++
    [0x40, 0, 0, 0, 0, 0, 0, 0] ++ List.replicate 8 0 ++
    List.replicate 4 0 ++ [0x40, 0] ++ [56, 0] ++ [1, 0] ++
    [0x40, 0] ++ [0, 0] ++ [0, 0]

/-- A 16-byte buffer whose fourth magic byte is wrong (`G`, not `F`). -/
def badMagic16 : List Nat := [0x7f, 0x45, 0x4c, 0x47] ++ List.replicate 12 0

/-- A 15-byte buffer carrying a correct 4-byte magic. -/
def shortGood15 : List Nat := [0x7f, 0x45, 0x4c, 0x46] ++ List.replicate 11 0

/-- A valid big-endian ELF64 header (identification byte 5 = 2) whose
`e_phnum` bytes at 0x38 are `00 01`: big-endian value 1, little-endian
value 256. -/
def beBuf : List Nat :=
  [0x7f, 0x45, 0x4c, 0x46, 2, 2, 1, 0] ++ List.replicate 8 0 ++
    List.replicate 0x28 0 ++ [0, 1] ++ List.replicate 6 0

/-- A little-endian ELF64 header with `e_shnum = 5` (bytes at 0x3C) and
`e_shstrndx = 4` (bytes at 0x3E). -/
def shstrndxBuf : List Nat :=
  [0x7f, 0x45, 0x4c, 0x46, 2, 1, 1, 0] ++ List.replicate 8 0 ++
    List.replicate 0x2c 0 ++ [5, 0] ++ [4, 0]

/-- A little-endian ELF64 header with `e_shnum = 0` and
`e_shstrndx = 4`. -/
def shstrndxBuf2 : List Nat :=
  [0x7f, 0x45, 0x4c, 0x46, 2, 1, 1, 0] ++ List.replicate 8 0 ++
    List.replicate 0x2c 0 ++ [0, 0] ++ [4, 0]

/-- A little-endian ELF64 header with `e_phnum = 0` and `e_shnum = 0`
whose `e_phoff` and `e_shoff` are the maximal u64 value, far past the
end of the 64-byte file. -/
def zeroCountBuf : List Nat :=
  [0x7f, 0x45, 0x4c, 0x46, 2, 1, 1, 0] ++ List.replicate 8 0 ++
    List.replicate 16 0 ++ List.replicate 8 0xff ++ List.replicate 8 0xff ++
    List.replicate 16 0

/-- The 56 bytes of a program-header entry with `p_type = 1` (PT_LOAD)
and `p_flags = 8`, a bit outside {Read, Write, Execute}. -/
def flags8PhdrBytes : List Nat := [1, 0, 0, 0, 8, 0, 0, 0] ++ List.replicate 48 0

/-- The Scenario C section content: the bytes of `"abc\0def\0"`. -/
def abcBuf : List Nat := [0x61, 0x62, 0x63, 0, 0x64, 0x65, 0x66, 0]

/-! ## Claim theorems -/

/-- Claim C1 (code evaluated at the failing input): on a 64-byte file
whose header declares `e_phoff = 64` (past the end of the file),
`e_phentsize = 56` and `e_phnum = 1`, the observed program-header loop
dereferences a byte index at or beyond the buffer length instead of
returning `OutOfBounds` for entry 0: the code performs no bounds check
at all. -/
theorem C1_code_eval :
    (decodeEhdr phoffPastEndBuf).e_phoff = 64 ∧
    (decodeEhdr phoffPastEndBuf).e_phnum = 1 ∧
    (decodeEhdr phoffPastEndBuf).e_phentsize = 56 ∧
    phoffPastEndBuf.length = 64 ∧
    ∃ i ∈ (parse_program_headers phoffPastEndBuf).2, phoffPastEndBuf.length ≤ i :=
  ⟨by decide, by decide, by decide, by decide, ⟨64, by decide, by decide⟩⟩

/-- Claim C2 (code evaluated at the failing inputs): on a 16-byte
buffer whose magic is wrong, the only check the observed code performs
(`map_file`'s assert, which aborts the whole process when false) fires,
so the failure is a process-level abort, not a typed `NotAnElfFile`
result; and a 15-byte buffer with a correct 4-byte magic passes that
assert, so no fewer-than-16-bytes check exists either. -/
theorem C2_code_eval :
    map_file_assert badMagic16 = false ∧ badMagic16.length = 16 ∧
    badMagic16.take 4 ≠ elfMagic ∧
    map_file_assert shortGood15 = true ∧ shortGood15.length = 15 := by
  decide

/-- Claim C3, counterexample: a valid ELF64 image declaring big-endian
encoding whose `e_phnum` bytes at 0x38 are `00 01`.  The integer they
encode in the declared (big) endianness is 1, but the decoder (an
x86-64 struct overlay) yields 256: the claim fails for big-endian
images. -/
theorem C3_counterexample :
    validElf64 beBuf = true ∧ declaredEndian beBuf = .Big ∧
    readUInt (declaredEndian beBuf) beBuf 0x38 2 ≠ some ((decodeEhdr beBuf).e_phnum) := by
  decide

/-- Claim C3 as amended: for every valid ELF64 image that declares
little-endian encoding, the decoded `e_phoff`, `e_shoff`, `e_phnum` and
`e_shnum` equal the integers encoded by the bytes at offsets 0x20,
0x28, 0x38, 0x3C in the declared endianness; big-endian images are
decoded with the wrong byte order because the code overlays the
host-endian struct regardless of identification byte 5. -/
theorem C3_le_refinement :
    ∀ b : List Nat, validElf64 b = true → b.getD 5 0 = 1 →
      readUInt (declaredEndian b) b 0x20 8 = some ((decodeEhdr b).e_phoff) ∧
      readUInt (declaredEndian b) b 0x28 8 = some ((decodeEhdr b).e_shoff) ∧
      readUInt (declaredEndian b) b 0x38 2 = some ((decodeEhdr b).e_phnum) ∧
      readUInt (declaredEndian b) b 0x3C 2 = some ((decodeEhdr b).e_shnum) := by
  intro b hv h5
  have hlen : 64 ≤ b.length := by
    simp only [validElf64, Bool.and_eq_true, decide_eq_true_eq] at hv
    exact hv.1.1.1
  have hd : declaredEndian b = .Little := by
    unfold declaredEndian
    rw [h5]
    norm_num
  have h40 : 40 ≤ b.length := by omega
  have h48 : 48 ≤ b.length := by omega
  have h58 : 58 ≤ b.length := by omega
  have h62 : 62 ≤ b.length := by omega
  rw [hd]
  have hr8 : List.range 8 = [0, 1, 2, 3, 4, 5, 6, 7] := rfl
  have hr2 : List.range 2 = [0, 1] := rfl
  refine ⟨?_, ?_, ?_, ?_⟩ <;>
    simp [readUInt, h40, h48, h58, h62, hr8, hr2, bytesLE, decodeEhdr, u64le, u16le] <;>
    omega

/-- Witness for the amended C3 at a concrete valid little-endian
image. -/
theorem C3_witness :
    readUInt (declaredEndian phoffPastEndBuf) phoffPastEndBuf 0x20 8 =
      some ((decodeEhdr phoffPastEndBuf).e_phoff) ∧
    readUInt (declaredEndian phoffPastEndBuf) phoffPastEndBuf 0x28 8 =
      some ((decodeEhdr phoffPastEndBuf).e_shoff) ∧
    readUInt (declaredEndian phoffPastEndBuf) phoffPastEndBuf 0x38 2 =
      some ((decodeEhdr phoffPastEndBuf).e_phnum) ∧
    readUInt (declaredEndian phoffPastEndBuf) phoffPastEndBuf 0x3C 2 =
      some ((decodeEhdr phoffPastEndBuf).e_shnum) :=
  C3_le_refinement phoffPastEndBuf (by decide) (by decide)

/-- Claim C4 (code evaluated at the failing input): the decoded struct
field `e_shstrndx` does equal the u16 at offset 0x3E, but the value the
program displays in the "Section hdr str idx" row, and the value it
tests against the sentinels `SHN_UNDEF`/`SHN_XINDEX`, is `e_shnum` (the
u16 at 0x3C): with `e_shnum = 5` and `e_shstrndx = 4` the row shows 5,
and with `e_shnum = 0`, `e_shstrndx = 4` the program reports "No string
table present" although the index field is 4. -/
theorem C4_code_eval :
    (decodeEhdr shstrndxBuf).e_shstrndx = 4 ∧
    (decodeEhdr shstrndxBuf).e_shstrndx = u16le shstrndxBuf 0x3E ∧
    (decodeEhdr shstrndxBuf).e_shnum = 5 ∧
    shstrndx_row (decodeEhdr shstrndxBuf) = 5 ∧
    shstrndx_row (decodeEhdr shstrndxBuf) ≠ (decodeEhdr shstrndxBuf).e_shstrndx ∧
    shstrndx_class (decodeEhdr shstrndxBuf2) = .NoTable ∧
    (decodeEhdr shstrndxBuf2).e_shstrndx = 4 := by
  decide

/-- Claim C5, counterexample: a program-header entry whose `p_flags`
is 8, a bit outside {Read, Write, Execute}.  The decoded bitset is
empty, so reconstructing the raw value yields 0, not 8: the round-trip
fails for flags with bits beyond the low three. -/
theorem C5_counterexample :
    encodeFlags (decodeFlags ((decodePhdrAt flags8PhdrBytes 0).p_flags)) ≠
      (decodePhdrAt flags8PhdrBytes 0).p_flags := by
  decide

/-- Claim C5 as amended: the flags bitset round-trips exactly for
`p_flags` values with no bits outside {Read, Write, Execute}
(`p_flags &&& 7 = p_flags`); and Scenario B holds: `p_type = 1`
classifies as LOAD and `p_flags = 5` decodes to Read and Execute set
with Write absent. -/
theorem C5_roundtrip :
    (∀ f, f &&& 7 = f → encodeFlags (decodeFlags f) = f) ∧
    decodeFlags 5 = (true, false, true) ∧ classifySegType 1 = .Load := by
  refine ⟨?_, by decide, by decide⟩
  intro f h
  have h7 : f ≤ 7 := by rw [← h]; exact Nat.and_le_right
  interval_cases f <;> decide

/-- Witness for the amended C5 at `p_flags = 5`. -/
theorem C5_witness : encodeFlags (decodeFlags 5) = 5 :=
  C5_roundtrip.1 5 (by decide)

/-- Claim C6: the extractor splits the Scenario C section content
`"abc\0def\0"` (type STRTAB, offset 0, length 8) into exactly the
mapping {0 : "abc", 4 : "def"}, and produces exactly one string table
per section of type STRTAB. -/
theorem C6_strtab :
    (strtabEntries abcBuf 0 8).map (fun p => (p.1, asString p.2)) =
      [(0, "abc"), (4, "def")] ∧
    ∀ b : List Nat, (parse_string_tables b).length = (strtabSections b).length := by
  refine ⟨by decide, ?_⟩
  intro b
  simp [parse_string_tables]

/-- Every index the scan visits lies below `pos + fuel`. -/
theorem scanReadIndices_lt : ∀ fuel pos i, i ∈ scanReadIndices fuel pos → i < pos + fuel := by
  intro fuel
  induction fuel with
  | zero => intro pos i h; simp [scanReadIndices] at h
  | succ n ih =>
      intro pos i h
      simp only [scanReadIndices, List.mem_cons] at h
      rcases h with h | h
      · omega
      · have := ih (pos + 1) i h
        omega

/-- Claim C7: for every section the String Table Extractor processes,
no byte at an index at or beyond `sh_offset + sh_size` is ever read:
every index the scan of parse_elf.c:491-506 dereferences is strictly
below that bound (the loop reads `map_addr[str_offset]` only while
`str_offset` is below it). -/
theorem C7_no_read_past_end :
    ∀ off size i, i ∈ strtabReads off size → i < off + size := by
  intro off size i h
  simp only [strtabReads] at h
  have h2 := scanReadIndices_lt _ _ _ h
  have h3 : (off + size) % 2 ^ 64 ≤ off + size := Nat.mod_le _ _
  omega

/-- Witness for C7 at the Scenario C section bounds. -/
theorem C7_witness : (3 : Nat) < 0 + 8 :=
  C7_no_read_past_end 0 8 3 (by decide)

/-- Claim C8: both endpoints of the processor-specific range
`[PT_LOPROC, PT_HIPROC]` classify as ProcessorSpecific, and every
`p_type` value that is neither one of the fixed known constants
(GNU types included) nor inside that range classifies as
`Unknown(raw)`. -/
theorem C8_classification :
    classifySegType 0x70000000 = .ProcessorSpecific ∧
    classifySegType 0x7fffffff = .ProcessorSpecific ∧
    ∀ t, t ∉ knownSegTypes → ¬(0x70000000 ≤ t ∧ t ≤ 0x7fffffff) →
      classifySegType t = .Unknown t := by
  refine ⟨by decide, by decide, ?_⟩
  intro t hk hr
  simp only [knownSegTypes, List.mem_cons, List.not_mem_nil, or_false, not_or] at hk
  obtain ⟨n0, n1, n2, n3, n4, n5, n6, g0, g1, g2⟩ := hk
  simp only [classifySegType, if_neg n0, if_neg n1, if_neg n2, if_neg n3, if_neg n4,
    if_neg n5, if_neg n6, if_neg hr, if_neg g0, if_neg g1, if_neg g2]

/-- Witness for C8 at `p_type = 7` (PT_TLS, absent from the code's
table). -/
theorem C8_witness : classifySegType 7 = SegmentType.Unknown 7 :=
  C8_classification.2.2 7 (by decide) (by decide)

/-- Claim C9: when `e_phnum` (respectively `e_shnum`) is 0, the
program-header (respectively section-header) loop runs zero iterations:
it decodes zero entries and dereferences no byte of the table region,
whatever `e_phoff`/`e_shoff` hold — the table base pointer is computed
but never dereferenced. -/
theorem C9_zero_counts :
    (∀ b : List Nat, (decodeEhdr b).e_phnum = 0 → parse_program_headers b = ([], [])) ∧
    (∀ b : List Nat, (decodeEhdr b).e_shnum = 0 → parse_section_headers b = ([], [])) := by
  refine ⟨?_, ?_⟩ <;> intro b h <;>
    simp [parse_program_headers, parse_section_headers, tableReadIndices, h]

/-- Witness for C9 on a header whose `e_phoff` and `e_shoff` are the
maximal u64 value, far past the end of the 64-byte file. -/
theorem C9_witness :
    parse_program_headers zeroCountBuf = ([], []) ∧
    parse_section_headers zeroCountBuf = ([], []) :=
  ⟨C9_zero_counts.1 zeroCountBuf (by decide), C9_zero_counts.2 zeroCountBuf (by decide)⟩

/-- Invariant of the string-table scan: assuming the accumulator holds
exactly the nul-free bytes of the current run `[start, pos)` and
`start` is the region base or follows a nul, every emitted entry is a
maximal nul-free run. -/
theorem scanAux_entries_good (b : List Nat) (hi lo : Nat) :
    ∀ (fuel pos start : Nat) (acc : List Nat),
      pos + fuel = hi → lo ≤ start → start ≤ pos →
      (start = lo ∨ (lo < start ∧ b.getD (start - 1) 0 = 0)) →
      acc = (List.range (pos - start)).map (fun j => b.getD (start + j) 0) →
      (∀ j, start + j < pos → b.getD (start + j) 0 ≠ 0) →
      ∀ p ∈ scanAux b hi fuel pos start acc,
        (∀ j < p.2.length, b.getD (p.1 + j) 0 ≠ 0) ∧
        (p.1 = lo ∨ (lo < p.1 ∧ b.getD (p.1 - 1) 0 = 0)) ∧
        (p.1 + p.2.length = hi ∨ b.getD (p.1 + p.2.length) 0 = 0) := by
  intro fuel
  induction fuel with
  | zero =>
      intro pos start acc hhi hlo hsp hstart hacc hrun p hp
      simp only [scanAux] at hp
      by_cases hlt : start < hi
      · rw [if_pos hlt] at hp
        simp only [List.mem_singleton] at hp
        subst hp
        have hlen : acc.length = pos - start := by rw [hacc]; simp
        dsimp only
        refine ⟨?_, hstart, ?_⟩
        · intro j hj
          apply hrun
          omega
        · left
          omega
      · rw [if_neg hlt] at hp
        simp at hp
  | succ n ih =>
      intro pos start acc hhi hlo hsp hstart hacc hrun p hp
      simp only [scanAux] at hp
      by_cases h0 : b.getD pos 0 = 0
      · rw [if_pos h0] at hp
        rcases List.mem_cons.mp hp with hp | hp
        · subst hp
          have hlen : acc.length = pos - start := by rw [hacc]; simp
          dsimp only
          refine ⟨?_, hstart, ?_⟩
          · intro j hj
            apply hrun
            omega
          · right
            have he : start + acc.length = pos := by omega
            rw [he]
            exact h0
        · refine ih (pos + 1) (pos + 1) [] (by omega) (by omega) (by omega)
            (Or.inr ⟨by omega, ?_⟩) (by simp) (by intro j hj; exact absurd hj (by omega)) p hp
          simpa using h0
      · rw [if_neg h0] at hp
        refine ih (pos + 1) start (acc ++ [b.getD pos 0]) (by omega) hlo (by omega) hstart ?_ ?_ p hp
        · have hps : pos + 1 - start = (pos - start) + 1 := by omega
          rw [hps, List.range_succ, List.map_append, ← hacc]
          simp only [List.map_cons, List.map_nil]
          have he : start + (pos - start) = pos := by omega
          rw [he]
        · intro j hj
          by_cases hjp : start + j < pos
          · exact hrun j hjp
          · have he : start + j = pos := by omega
            rw [he]
            exact h0

/-- Claim C10: every entry `(offset, s)` of an extracted string table
is a maximal nul-free run of the section's bytes: the bytes at
`[offset, offset + length s)` contain no nul, `offset` is either
`sh_offset` itself or the position immediately following a nul within
the section, and the run ends at a nul or at the section boundary. -/
theorem C10_maximal_runs :
    ∀ (b : List Nat) (off size : Nat), off + size < 2 ^ 64 →
      ∀ p ∈ strtabEntries b off size,
        (∀ j < p.2.length, b.getD (p.1 + j) 0 ≠ 0) ∧
        (p.1 = off ∨ (off < p.1 ∧ b.getD (p.1 - 1) 0 = 0)) ∧
        (p.1 + p.2.length = off + size ∨ b.getD (p.1 + p.2.length) 0 = 0) := by
  intro b off size hsz p hp
  have hmod : (off + size) % 2 ^ 64 = off + size := Nat.mod_eq_of_lt hsz
  simp only [strtabEntries, hmod] at hp
  exact scanAux_entries_good b (off + size) off (off + size - off) off off []
    (by omega) (le_refl off) (le_refl off) (Or.inl rfl) (by simp)
    (by intro j hj; exact absurd hj (by omega)) p hp

/-- Witness for C10 at the entry `(4, "def")` of the Scenario C
section. -/
theorem C10_witness :
    (∀ j < 3, abcBuf.getD (4 + j) 0 ≠ 0) ∧
    ((4 : Nat) = 0 ∨ ((0 : Nat) < 4 ∧ abcBuf.getD (4 - 1) 0 = 0)) ∧
    ((4 : Nat) + 3 = 0 + 8 ∨ abcBuf.getD (4 + 3) 0 = 0) :=
  C10_maximal_runs abcBuf 0 8 (by decide) (4, [0x64, 0x65, 0x66]) (by decide)

end ParseElf
